import Mathlib

/-!
Shallow embedding of the SmartScheduler allocation engine
(`TaskScheduler.ts`, with the task data model of `TaskModel.ts`).

Modelling conventions:
* Timestamps are integers counting minutes. This renders JavaScript `Date`
  values faithfully here: the source only compares, subtracts and adds whole
  minutes (via `setMinutes`, which normalizes overflow into exact
  minute addition).
* The ambient clock `new Date()` read inside `calculateEndTime` when no
  explicit start is supplied is passed around as an explicit `now : Int`.
* JavaScript `throw` is modelled with `Except String`.
* The in-place sort performed on the caller's array by `prioritizeTasks` is
  modelled by explicit state passing: `autoSchedule` returns the post-run
  scheduler state whose `tasks` field holds the sorted list. JavaScript
  `Array.prototype.sort` is stable, and a stable sort by a total preorder has a
  unique result, so the stable `List.mergeSort` with the same comparator is its
  faithful model.
* The aliasing mutation `selectedSlot.available = false` (performed on the slot
  object that `filter`/`find` returned by reference out of the original array)
  is modelled by `consumeFirst`, which marks the first slot satisfying the
  combined predicate in place in the list: `filter p` followed by `find q`
  selects exactly the first element satisfying `p && q`, in grid order.
-/

namespace SmartScheduler

/-- The `TaskType` enum of `TaskModel.ts` (string values "fixed", "routine", "flexible"). -/
inductive TaskType where
  | fixed
  | routine
  | flexible
deriving DecidableEq, Repr

/-- The `TaskPriority` enum of `TaskModel.ts` (string values "high", "medium", "low"). -/
inductive TaskPriority where
  | high
  | medium
  | low
deriving DecidableEq, Repr

/-- The `preferredTimeRange` record `{ start, end }`. -/
structure TimeRange where
  start : Int
  «end» : Int
deriving DecidableEq, Repr

/-- The `Task` interface of `TaskModel.ts`; `duration` is in minutes. -/
structure Task where
  id : String
  name : String
  type : TaskType
  priority : TaskPriority
  duration : Int
  startTime : Option Int
  endTime : Option Int
  preferredTimeRange : Option TimeRange
  frequency : Option String
  createdAt : Int
  updatedAt : Int
deriving DecidableEq, Repr

/-- The `TimeSlot` interface of `TaskScheduler.ts`. -/
structure TimeSlot where
  start : Int
  «end» : Int
  available : Bool
deriving DecidableEq, Repr

/-- The `priorityOrder` object literal inside `prioritizeTasks`, keyed by the
enum string values; a missing key is JavaScript `undefined`, modelled `none`. -/
def priorityOrder (key : String) : Option Int :=
  if key = "fixed" then some 4
  else if key = "high" then some 3
  else if key = "routine" then some 2
  else if key = "flexible" then some 1
  else none

/-- String value of a `TaskType` member (the object key used in the lookup). -/
def TaskType.key : TaskType → String
  | .fixed => "fixed"
  | .routine => "routine"
  | .flexible => "flexible"

/-- String value of a `TaskPriority` member. -/
def TaskPriority.key : TaskPriority → String
  | .high => "high"
  | .medium => "medium"
  | .low => "low"

/-- Rank computed by `prioritizeTasks` for one task:
`priorityOrder[a.type] || priorityOrder[a.priority] || 0`. Every value stored
in the table is nonzero, so JavaScript truthiness of a successful lookup
coincides with `isSome` and `||` is exactly the `none` fallback. -/
def taskRank (t : Task) : Int :=
  match priorityOrder t.type.key with
  | some v => v
  | none =>
    match priorityOrder t.priority.key with
    | some v => v
    | none => 0

/-- Model of `prioritizeTasks`: `this.tasks.sort((a, b) => bPriority - aPriority)`, a
stable sort in descending rank order (`a` kept before `b` whenever
`taskRank b ≤ taskRank a`, i.e. whenever the comparator is `≤ 0`). -/
def prioritizeTasks (tasks : List Task) : List Task :=
  tasks.mergeSort (fun a b => decide (taskRank b ≤ taskRank a))

/-- The emission loop of `generateTimeSlots`: starting at `cur`, while
`cur < we` emit the 30-minute slot `[cur, cur + 30)` and advance to its end. -/
def genSlots (we cur : Int) : List TimeSlot :=
  if h : cur < we then
    { start := cur, «end» := cur + 30, available := true } :: genSlots we (cur + 30)
  else []
termination_by (we - cur).toNat
decreasing_by simp_wf; omega

/-- Model of `generateTimeSlots`: tile the workday window in 30-minute slots, starting
at `workdayStart`, stopping once the running start reaches `workdayEnd`. -/
def generateTimeSlots (ws we : Int) : List TimeSlot :=
  genSlots we ws

/-- Model of `canFitTask`: the slot's span in minutes must be at least `task.duration`. -/
def canFitTask (slot : TimeSlot) (task : Task) : Bool :=
  decide (slot.«end» - slot.start ≥ task.duration)

/-- Model of `calculateEndTime(task, startTime?)`: start plus duration; when NO explicit
start is passed, the source falls back to the ambient clock `new Date()`,
modelled by `now`. -/
def calculateEndTime (now : Int) (task : Task) (startTime : Option Int) : Int :=
  match startTime with
  | some st => st + task.duration
  | none => now + task.duration

/-- Model of `isWithinWorkday`: `time >= workdayStart && time <= workdayEnd`, both
bounds inclusive. -/
def isWithinWorkday (ws we time : Int) : Bool :=
  decide (ws ≤ time) && decide (time ≤ we)

/-- Mark a slot as consumed (`selectedSlot.available = false`). -/
def markUnavailable (s : TimeSlot) : TimeSlot :=
  { s with available := false }

/-- Select the first slot satisfying `p`: return it together with the list in
which that very slot has been marked unavailable — the aliasing mutation of
the source, where `filter`/`find` hand back references into the original
array and the selected slot is flipped in place. -/
def consumeFirst (p : TimeSlot → Bool) : List TimeSlot → Option TimeSlot × List TimeSlot
  | [] => (none, [])
  | s :: rest =>
    if p s then (some s, markUnavailable s :: rest)
    else
      let r := consumeFirst p rest
      (r.1, s :: r.2)

/-- Model of `scheduleFixedTask`: validate the start time against the workday, then
return a copy with `endTime = calculateEndTime(task)` — the source passes no
start argument there, so the helper falls back to the ambient clock. -/
def scheduleFixedTask (now ws we : Int) (task : Task) : Except String Task :=
  match task.startTime with
  | some st =>
    if isWithinWorkday ws we st then
      .ok { task with endTime := some (calculateEndTime now task none) }
    else .error ("Fixed task outside of workday")
  | none => .error ("Fixed task outside of workday")

/-- Combined selection predicate of `scheduleTaskWithPreference`: the `filter`
(slot inside the preferred range, still available) composed with the `find`
(fit check). The first grid slot satisfying the conjunction is exactly the
first filtered slot passing the fit check. -/
def prefSlotPred (task : Task) (pr : TimeRange) (s : TimeSlot) : Bool :=
  decide (pr.start ≤ s.start) && decide (s.«end» ≤ pr.«end») && s.available &&
    canFitTask s task

/-- Model of `scheduleTaskWithPreference`: pick the first available slot contained in
the preferred range that fits, consume it, and place the task at its start. -/
def scheduleTaskWithPreference (now : Int) (task : Task) (slots : List TimeSlot) :
    Option Task × List TimeSlot :=
  match task.preferredTimeRange with
  | none => (none, slots)
  | some pr =>
    match consumeFirst (prefSlotPred task pr) slots with
    | (some s, slots2) =>
      (some { task with startTime := some s.start,
                        endTime := some (calculateEndTime now task (some s.start)) },
       slots2)
    | (none, slots2) => (none, slots2)

/-- Selection predicate of `scheduleFlexibleTask`: still available and fits. -/
def flexSlotPred (task : Task) (s : TimeSlot) : Bool :=
  s.available && canFitTask s task

/-- Model of `scheduleFlexibleTask`: pick the first available slot that fits anywhere
in the grid, consume it, and place the task at its start. -/
def scheduleFlexibleTask (now : Int) (task : Task) (slots : List TimeSlot) :
    Option Task × List TimeSlot :=
  match consumeFirst (flexSlotPred task) slots with
  | (some s, slots2) =>
    (some { task with startTime := some s.start,
                      endTime := some (calculateEndTime now task (some s.start)) },
     slots2)
  | (none, slots2) => (none, slots2)

/-- Model of the `scheduleTask` dispatch: the fixed route exactly when
`task.type === TaskType.FIXED && task.startTime` (a `Date` object is truthy
exactly when present); else the preferred route when a `preferredTimeRange`
is present; else the flexible route. -/
def scheduleTask (now ws we : Int) (task : Task) (slots : List TimeSlot) :
    Except String (Option Task × List TimeSlot) :=
  if task.type = TaskType.fixed ∧ task.startTime.isSome then
    (scheduleFixedTask now ws we task).map (fun t => (some t, slots))
  else if task.preferredTimeRange.isSome then
    .ok (scheduleTaskWithPreference now task slots)
  else
    .ok (scheduleFlexibleTask now task slots)

/-- The per-task loop of `autoSchedule`: process the prioritized tasks in
order, threading slot availability; a thrown error aborts before any later
task is processed and discards every placement accumulated so far. -/
def schedLoop (now ws we : Int) : List Task → List TimeSlot → Except String (List Task)
  | [], _ => .ok []
  | task :: rest, slots =>
    match scheduleTask now ws we task slots with
    | .error e => .error e
    | .ok r =>
      match schedLoop now ws we rest r.2 with
      | .error e => .error e
      | .ok tail =>
        match r.1 with
        | some st => .ok (st :: tail)
        | none => .ok tail

/-- The `TaskScheduler` class state: the task list field (aliasing the
caller's array) and the configured workday bounds. -/
structure TaskScheduler where
  tasks : List Task
  workdayStart : Int
  workdayEnd : Int
deriving Repr

/-- The constructor: stores the caller's list and defaults the workday to
8:00–20:00 of the ambient current day, whose midnight timestamp is passed
explicitly. -/
def TaskScheduler.create (tasks : List Task) (todayMidnight : Int) : TaskScheduler :=
  { tasks := tasks
    workdayStart := todayMidnight + 8 * 60
    workdayEnd := todayMidnight + 20 * 60 }

/-- Model of `autoSchedule`: prioritize (mutating the scheduler's task list — returned
here as the post-state), generate one slot grid, then place each task in
priority order, accumulating the non-null results. -/
def autoSchedule (s : TaskScheduler) (now : Int) :
    Except String (List Task) × TaskScheduler :=
  let sorted := prioritizeTasks s.tasks
  (schedLoop now s.workdayStart s.workdayEnd sorted
     (generateTimeSlots s.workdayStart s.workdayEnd),
   { s with tasks := sorted })

/-- Value `true` when `scheduleTask` routes this task through slot-based placement
(preferred-window or flexible), `false` on the fixed route. -/
def slotRouted (task : Task) : Bool :=
  !(decide (task.type = TaskType.fixed) && task.startTime.isSome)

/-- The loop `schedLoop` instrumented with the placement route of each output task:
identical control flow, each placed task tagged with `slotRouted` of the
input task producing it. -/
def schedLoopT (now ws we : Int) : List Task → List TimeSlot →
    Except String (List (Bool × Task))
  | [], _ => .ok []
  | task :: rest, slots =>
    match scheduleTask now ws we task slots with
    | .error e => .error e
    | .ok r =>
      match schedLoopT now ws we rest r.2 with
      | .error e => .error e
      | .ok tail =>
        match r.1 with
        | some st => .ok ((slotRouted task, st) :: tail)
        | none => .ok tail

/-! ### Characterization of the slot grid -/

/-- One-step unfolding of `genSlots` when the cursor is inside the window. -/
theorem genSlots_cons (we cur : Int) (h : cur < we) :
    genSlots we cur =
      { start := cur, «end» := cur + 30, available := true } :: genSlots we (cur + 30) := by
  rw [genSlots]
  simp [h]

/-- One-step unfolding of `genSlots` once the cursor has left the window. -/
theorem genSlots_nil (we cur : Int) (h : ¬cur < we) : genSlots we cur = [] := by
  rw [genSlots]
  simp [h]

/-- Closed form of the emission loop: the grid is the image of an index range. -/
theorem genSlots_eq (we cur : Int) :
    genSlots we cur =
      (List.range (((we - cur).toNat + 29) / 30)).map
        (fun i =>
          { start := cur + 30 * i, «end» := cur + 30 * i + 30, available := true }) := by
  by_cases h : cur < we
  · have hn : ((we - cur).toNat + 29) / 30 = ((we - (cur + 30)).toNat + 29) / 30 + 1 := by
      omega
    rw [genSlots_cons we cur h, hn, List.range_succ_eq_map, List.map_cons, List.map_map,
      genSlots_eq we (cur + 30)]
    refine congrArg₂ _ (by simp) (List.map_congr_left ?_)
    intro i _
    simp only [Function.comp_apply, TimeSlot.mk.injEq]
    push_cast
    exact ⟨by ring, by ring, trivial⟩
  · have hn : ((we - cur).toNat + 29) / 30 = 0 := by omega
    rw [genSlots_nil we cur h, hn]
    simp
termination_by (we - cur).toNat
decreasing_by simp_wf; omega

/-- Closed form of `generateTimeSlots`. -/
theorem generateTimeSlots_eq (ws we : Int) :
    generateTimeSlots ws we =
      (List.range (((we - ws).toNat + 29) / 30)).map
        (fun i =>
          { start := ws + 30 * i, «end» := ws + 30 * i + 30, available := true }) :=
  genSlots_eq we ws

/-- C6: for every workday window, `generateTimeSlots` yields an ordered
sequence of contiguous, non-overlapping 30-minute slots: the count is
`(workdayEnd - workdayStart) / 30` rounded up, slot `i` is exactly
`[ws + 30i, ws + 30i + 30)` and available (so the first slot starts at
`workdayStart`, each slot's start is the previous slot's end, and no slot is
clamped: the last slot's end is at or past `workdayEnd`). Regeneration from
the same bounds is identical because `generateTimeSlots` is a pure function
of the bounds. -/
theorem C6_generateTimeSlots_grid (ws we : Int) :
    (generateTimeSlots ws we).length = ((we - ws).toNat + 29) / 30 ∧
    (∀ (i : Nat) (hi : i < (generateTimeSlots ws we).length),
      (generateTimeSlots ws we).get ⟨i, hi⟩ =
        { start := ws + 30 * i, «end» := ws + 30 * i + 30, available := true }) ∧
    (∀ s ∈ generateTimeSlots ws we, s.available = true ∧ s.«end» = s.start + 30) ∧
    (∀ (i : Nat) (hi : i + 1 < (generateTimeSlots ws we).length),
      ((generateTimeSlots ws we).get ⟨i + 1, hi⟩).start =
        ((generateTimeSlots ws we).get ⟨i, Nat.lt_of_succ_lt hi⟩).«end») ∧
    (∀ h : generateTimeSlots ws we ≠ [],
      we ≤ ((generateTimeSlots ws we).getLast h).«end») := by
  rw [generateTimeSlots_eq ws we]
  refine ⟨by simp, ?_, ?_, ?_, ?_⟩
  · intro i hi
    simp only [List.length_map, List.length_range] at hi
    simp [List.get_eq_getElem, List.getElem_map, List.getElem_range]
  · intro s hs
    rcases List.mem_map.mp hs with ⟨i, _, rfl⟩
    exact ⟨rfl, by ring⟩
  · intro i hi
    simp only [List.length_map, List.length_range] at hi
    simp only [List.get_eq_getElem, List.getElem_map, List.getElem_range]
    push_cast
    ring
  · intro h
    have hlen :
        ((List.range (((we - ws).toNat + 29) / 30)).map
          (fun i : Nat =>
            TimeSlot.mk (ws + 30 * i) (ws + 30 * i + 30) true)).length =
          ((we - ws).toNat + 29) / 30 := by simp
    rw [List.getLast_eq_getElem]
    have hne : 0 < ((we - ws).toNat + 29) / 30 := by
      rcases Nat.eq_zero_or_pos (((we - ws).toNat + 29) / 30) with h0 | h0
      · exfalso
        apply h
        rw [List.eq_nil_iff_forall_not_mem]
        intro s hs
        rw [List.mem_map] at hs
        rcases hs with ⟨i, hi, _⟩
        rw [List.mem_range, h0] at hi
        omega
      · exact h0
    simp only [List.getElem_map, List.getElem_range, hlen]
    omega

/-- Closed instance of C6: the window `[0, 45)` is not a multiple of 30; it
yields two slots `[0, 30)` and `[30, 60)`, the last extending past 45. -/
theorem C6_generateTimeSlots_grid_witness :
    (generateTimeSlots 0 45).length = 2 ∧
    (generateTimeSlots 0 45)[0]? = some { start := 0, «end» := 30, available := true } ∧
    (generateTimeSlots 0 45)[1]? = some { start := 30, «end» := 60, available := true } := by
  have h := C6_generateTimeSlots_grid 0 45
  have hlen : (generateTimeSlots 0 45).length = 2 := by rw [h.1]; decide
  refine ⟨hlen, ?_, ?_⟩
  · have h0 : (0 : Nat) < (generateTimeSlots 0 45).length := by omega
    have h2 := h.2.1 0 h0
    simp only [List.get_eq_getElem] at h2
    rw [List.getElem?_eq_getElem h0, h2]
    norm_num
  · have h1 : (1 : Nat) < (generateTimeSlots 0 45).length := by omega
    have h2 := h.2.1 1 h1
    simp only [List.get_eq_getElem] at h2
    rw [List.getElem?_eq_getElem h1, h2]
    norm_num

/-! ### Selection-and-consumption lemmas -/

/-- When no slot satisfies the predicate, nothing is selected and the slot
list is unchanged. -/
theorem consumeFirst_not_found (p : TimeSlot → Bool) (l : List TimeSlot)
    (h : ∀ x ∈ l, p x = false) : consumeFirst p l = (none, l) := by
  induction l with
  | nil => rfl
  | cons s rest ih =>
    have hs := h s (List.mem_cons_self s rest)
    simp [consumeFirst, hs, ih (fun x hx => h x (List.mem_cons_of_mem s hx))]

/-- When `findIdx?` locates the first satisfying slot at index `i`,
`consumeFirst` returns that slot and marks exactly position `i` unavailable. -/
theorem consumeFirst_found (p : TimeSlot → Bool) (l : List TimeSlot) (i : Nat)
    (h : l.findIdx? p = some i) :
    ∃ hi : i < l.length,
      p (l.get ⟨i, hi⟩) = true ∧
      consumeFirst p l = (some (l.get ⟨i, hi⟩), l.set i (markUnavailable (l.get ⟨i, hi⟩))) := by
  induction l generalizing i with
  | nil => simp [List.findIdx?_nil] at h
  | cons s rest ih =>
    by_cases hs : p s
    · have h0 : i = 0 := by simp [List.findIdx?_cons, hs] at h; omega
      subst h0
      exact ⟨by simp, by simpa using hs, by simp [consumeFirst, hs]⟩
    · have h1 : rest.findIdx? p = some (i - 1) ∧ 1 ≤ i := by
        simp only [List.findIdx?_cons, hs, if_false, List.findIdx?_start_succ] at h
        rcases Option.map_eq_some'.mp h with ⟨j, hj, hji⟩
        exact ⟨by rw [hj]; congr 1; omega, by omega⟩
      obtain ⟨hj, hge⟩ := h1
      obtain ⟨hij, hpj, hcf⟩ := ih (i - 1) hj
      obtain ⟨k, rfl⟩ : ∃ k, i = k + 1 := ⟨i - 1, by omega⟩
      simp only [Nat.add_sub_cancel] at hij hpj hcf
      refine ⟨by simpa using Nat.succ_lt_succ hij, by simpa using hpj, ?_⟩
      simp [consumeFirst, hs, hcf]

/-- A task record and related concrete tasks used in closed instances.
Bookkeeping fields are neutral; the engine never reads them. -/
def mkTask (i : String) (ty : TaskType) (pr : TaskPriority) (d : Int)
    (st : Option Int) (pw : Option TimeRange) : Task :=
  { id := i, name := i, type := ty, priority := pr, duration := d,
    startTime := st, endTime := none, preferredTimeRange := pw,
    frequency := none, createdAt := 0, updatedAt := 0 }

/-- A flexible 30-minute task. -/
def flexA : Task := mkTask ("A") .flexible .medium 30 none none

/-- A second flexible 30-minute task. -/
def flexB : Task := mkTask ("B") .flexible .medium 30 none none

/-- A flexible 30-minute task preferring the window 10:00–11:00. -/
def prefTask : Task := mkTask ("P") .flexible .medium 30 none (some ⟨600, 660⟩)

/-- C7: with a preferred window present, placement selects exactly the
first grid slot that is inside `[preferredWindow.start, preferredWindow.end]`,
still available and fits the duration (`prefSlotPred`, the source's `filter`
composed with its `find`); it marks precisely that slot unavailable and
returns the task placed at the slot's start with
`endTime = start + durationMinutes`. With no such slot it returns no
placement and leaves the slots unchanged, and the orchestrator loop then
drops the task from the output without error. -/
theorem C7_preferred_window_placement (now ws we : Int) (task : Task) (pr : TimeRange)
    (slots : List TimeSlot) (hpr : task.preferredTimeRange = some pr) :
    (slots.findIdx? (prefSlotPred task pr) = none →
      scheduleTaskWithPreference now task slots = (none, slots)) ∧
    (∀ (i : Nat) (hi : i < slots.length),
      slots.findIdx? (prefSlotPred task pr) = some i →
      scheduleTaskWithPreference now task slots =
        (some { task with
                  startTime := some (slots.get ⟨i, hi⟩).start,
                  endTime := some ((slots.get ⟨i, hi⟩).start + task.duration) },
         slots.set i (markUnavailable (slots.get ⟨i, hi⟩)))) ∧
    (∀ rest : List Task,
      ¬(task.type = TaskType.fixed ∧ task.startTime.isSome) →
      slots.findIdx? (prefSlotPred task pr) = none →
      schedLoop now ws we (task :: rest) slots = schedLoop now ws we rest slots) := by
  refine ⟨?_, ?_, ?_⟩
  · intro h
    have hnone := consumeFirst_not_found (prefSlotPred task pr) slots
      (List.findIdx?_eq_none_iff.mp h)
    simp [scheduleTaskWithPreference, hpr, hnone]
  · intro i hi h
    obtain ⟨hi2, hp, hcf⟩ := consumeFirst_found (prefSlotPred task pr) slots i h
    simp [scheduleTaskWithPreference, hpr, hcf, calculateEndTime]
  · intro rest hnotfix h
    have hsched : scheduleTask now ws we task slots = .ok (none, slots) := by
      have hnone := consumeFirst_not_found (prefSlotPred task pr) slots
        (List.findIdx?_eq_none_iff.mp h)
      simp [scheduleTask, hnotfix, hpr, scheduleTaskWithPreference, hnone]
    simp only [schedLoop, hsched]
    cases schedLoop now ws we rest slots <;> rfl

/-- Closed instance of C7: the task preferring 10:00–11:00 lands in the first
slot of that window, `[600, 630)`, on the 08:00–12:00 grid. -/
theorem C7_preferred_window_placement_witness :
    (scheduleTaskWithPreference 0 prefTask (generateTimeSlots 480 720)).1 =
      some { prefTask with startTime := some 600, endTime := some 630 } := by
  have hi : 4 < (generateTimeSlots 480 720).length := by
    rw [generateTimeSlots_eq]; decide
  have hf : (generateTimeSlots 480 720).findIdx? (prefSlotPred prefTask ⟨600, 660⟩) =
      some 4 := by
    rw [generateTimeSlots_eq]; decide
  have h := (C7_preferred_window_placement 0 0 0 prefTask ⟨600, 660⟩
    (generateTimeSlots 480 720) rfl).2.1 4 hi hf
  have hget : (generateTimeSlots 480 720)[4]? = some { start := 600, «end» := 630, available := true } := by
    rw [generateTimeSlots_eq]; decide
  rw [List.getElem?_eq_getElem hi] at hget
  have hget2 : (generateTimeSlots 480 720).get ⟨4, hi⟩ = { start := 600, «end» := 630, available := true } := by
    simpa [List.get_eq_getElem] using Option.some.inj hget
  rw [h, hget2]
  simp [prefTask, mkTask]

/-- C8: flexible placement selects exactly the first grid slot that is
still available and fits (`flexSlotPred`), marks it unavailable and places the
task at the slot's start; with no fitting slot it returns no placement and the
orchestrator loop drops the task. Concretely, two flexible 30-minute tasks on
the default 08:00 workday land at 08:00–08:30 and 08:30–09:00. -/
theorem C8_flexible_first_fit :
    (∀ (now ws we : Int) (task : Task) (slots : List TimeSlot),
      (slots.findIdx? (flexSlotPred task) = none →
        scheduleFlexibleTask now task slots = (none, slots)) ∧
      (∀ (i : Nat) (hi : i < slots.length),
        slots.findIdx? (flexSlotPred task) = some i →
        scheduleFlexibleTask now task slots =
          (some { task with
                    startTime := some (slots.get ⟨i, hi⟩).start,
                    endTime := some ((slots.get ⟨i, hi⟩).start + task.duration) },
           slots.set i (markUnavailable (slots.get ⟨i, hi⟩)))) ∧
      (∀ rest : List Task,
        ¬(task.type = TaskType.fixed ∧ task.startTime.isSome) →
        task.preferredTimeRange = none →
        slots.findIdx? (flexSlotPred task) = none →
        schedLoop now ws we (task :: rest) slots = schedLoop now ws we rest slots)) ∧
    (autoSchedule (TaskScheduler.create [flexA, flexB] 0) 0).1 =
      .ok [{ flexA with startTime := some 480, endTime := some 510 },
           { flexB with startTime := some 510, endTime := some 540 }] := by
  constructor
  · intro now ws we task slots
    refine ⟨?_, ?_, ?_⟩
    · intro h
      have hnone := consumeFirst_not_found (flexSlotPred task) slots
        (List.findIdx?_eq_none_iff.mp h)
      simp [scheduleFlexibleTask, hnone]
    · intro i hi h
      obtain ⟨hi2, hp, hcf⟩ := consumeFirst_found (flexSlotPred task) slots i h
      simp [scheduleFlexibleTask, hcf, calculateEndTime]
    · intro rest hnotfix hnopr h
      have hnone := consumeFirst_not_found (flexSlotPred task) slots
        (List.findIdx?_eq_none_iff.mp h)
      have hsched : scheduleTask now ws we task slots = .ok (none, slots) := by
        simp [scheduleTask, hnotfix, hnopr, scheduleFlexibleTask, hnone]
      simp only [schedLoop, hsched]
      cases schedLoop now ws we rest slots <;> rfl
  · have hsort : prioritizeTasks [flexA, flexB] = [flexA, flexB] := by
      unfold prioritizeTasks
      apply List.mergeSort_of_sorted
      simp [List.pairwise_cons]
      decide
    simp only [autoSchedule, TaskScheduler.create, hsort]
    norm_num
    rw [generateTimeSlots_eq]
    rfl

/-- Closed instance of C8's general part: on a fresh two-slot grid the first
fitting slot is index 0 and the task is placed at its start. -/
theorem C8_flexible_first_fit_witness :
    (scheduleFlexibleTask 0 flexA (generateTimeSlots 480 540)).1 =
      some { flexA with startTime := some 480, endTime := some 510 } := by
  have hi : 0 < (generateTimeSlots 480 540).length := by
    rw [generateTimeSlots_eq]; decide
  have hf : (generateTimeSlots 480 540).findIdx? (flexSlotPred flexA) = some 0 := by
    rw [generateTimeSlots_eq]; decide
  have h := (C8_flexible_first_fit.1 0 0 0 flexA (generateTimeSlots 480 540)).2.1 0 hi hf
  have hget : (generateTimeSlots 480 540)[0]? = some { start := 480, «end» := 510, available := true } := by
    rw [generateTimeSlots_eq]; decide
  rw [List.getElem?_eq_getElem hi] at hget
  have hget2 : (generateTimeSlots 480 540).get ⟨0, hi⟩ = { start := 480, «end» := 510, available := true } := by
    simpa [List.get_eq_getElem] using Option.some.inj hget
  rw [h, hget2]
  simp [flexA, mkTask]

/-! ### Prioritization -/

/-- The sorted task list is a permutation of the input. -/
theorem prioritizeTasks_perm (tasks : List Task) :
    List.Perm (prioritizeTasks tasks) tasks :=
  List.mergeSort_perm tasks _

/-- The sorted task list is in nonincreasing `taskRank` order. -/
theorem prioritizeTasks_sorted (tasks : List Task) :
    List.Pairwise (fun a b => taskRank b ≤ taskRank a) (prioritizeTasks tasks) := by
  unfold prioritizeTasks
  refine List.Pairwise.imp ?_ (List.sorted_mergeSort ?_ ?_ tasks)
  · intro a b hab
    simpa using hab
  · intro a b c hab hbc
    simp only [decide_eq_true_eq] at hab hbc ⊢
    omega
  · intro a b
    simp only [Bool.or_eq_true, decide_eq_true_eq]
    omega

/-- The rank every task with one of the three defined kinds actually gets:
the kind lookup always succeeds, so the priority fallback never fires. -/
theorem taskRank_eq_kind_rank (t : Task) :
    taskRank t =
      match t.type with
      | TaskType.fixed => 4
      | TaskType.routine => 2
      | TaskType.flexible => 1 := by
  obtain ⟨i, n, ty, pr, d, st, et, pw, fr, ca, ua⟩ := t
  cases ty <;> cases pr <;> rfl

/-- Rank as the claim words the ordering: Fixed first, then High priority,
then Routine, then Flexible. -/
def claimRank (t : Task) : Int :=
  if t.type = TaskType.fixed then 4
  else if t.priority = TaskPriority.high then 3
  else if t.type = TaskType.routine then 2
  else 1

/-- A Routine task of Medium priority. -/
def taskR : Task := mkTask ("R") .routine .medium 30 none none

/-- A Flexible task of High priority. -/
def taskH : Task := mkTask ("H") .flexible .high 30 none none

/-- C2 counterexample: on the list `[Routine/Medium, Flexible/High]` the
code keeps the Routine task first (ranks 2 then 1), so the High-priority task
does NOT precede the Routine task and the claimed class order
Fixed > High > Routine > Flexible is violated by the output. -/
theorem C2_priority_order_cex :
    prioritizeTasks [taskR, taskH] = [taskR, taskH] ∧
    taskH.priority = TaskPriority.high ∧ taskR.type = TaskType.routine ∧
    claimRank taskH = 3 ∧ claimRank taskR = 2 ∧
    ¬ List.Pairwise (fun a b => claimRank b ≤ claimRank a)
        (prioritizeTasks [taskR, taskH]) := by
  have hsort : prioritizeTasks [taskR, taskH] = [taskR, taskH] := by
    unfold prioritizeTasks
    apply List.mergeSort_of_sorted
    simp [List.pairwise_cons]
    decide
  refine ⟨hsort, rfl, rfl, by decide, by decide, ?_⟩
  rw [hsort]
  intro hpw
  have h := (List.pairwise_cons.mp hpw).1 taskH (by simp)
  revert h
  decide

/-- C2 amended: prioritization stably sorts by descending `taskRank`,
where the rank of every task with a defined kind comes from the kind table
alone — Fixed 4, Routine 2, Flexible 1 — because the kind lookup is checked
before the priority lookup and always succeeds; the High(3) entry is
unreachable, so the output order is all Fixed tasks, then all Routine tasks,
then all Flexible tasks, with priority never consulted. The output is a
permutation of the input. -/
theorem C2_prioritize_rank_amended (tasks : List Task) :
    List.Perm (prioritizeTasks tasks) tasks ∧
    List.Pairwise (fun a b => taskRank b ≤ taskRank a) (prioritizeTasks tasks) ∧
    (∀ t : Task, taskRank t =
      match t.type with
      | TaskType.fixed => 4
      | TaskType.routine => 2
      | TaskType.flexible => 1) :=
  ⟨prioritizeTasks_perm tasks, prioritizeTasks_sorted tasks, taskRank_eq_kind_rank⟩

/-- C9: `autoSchedule` updates the scheduler's task-list field (the alias
of the caller's list) to the prioritized order itself — not a copy: the
post-state holds exactly the same elements reordered into nonincreasing rank
order. -/
theorem C9_autoSchedule_mutates_input (s : TaskScheduler) (now : Int) :
    (autoSchedule s now).2 = { s with tasks := prioritizeTasks s.tasks } ∧
    List.Perm ((autoSchedule s now).2.tasks) s.tasks ∧
    List.Pairwise (fun a b => taskRank b ≤ taskRank a) ((autoSchedule s now).2.tasks) :=
  ⟨rfl, prioritizeTasks_perm s.tasks, prioritizeTasks_sorted s.tasks⟩

/-! ### Fixed-task placement -/

/-- A Fixed task with an in-window start time 500 (08:20) and duration 60. -/
def fixedTask : Task := mkTask ("F") .fixed .high 60 (some 500) none

/-- C1 (bug evidence): for the in-window Fixed task starting at 500 with
duration 60, a run with ambient clock `now = 480` returns the task with
`endTime = 540 = now + duration` and `startTime` unchanged — but
`startTime + durationMinutes = 560 ≠ 540`: `scheduleFixedTask` calls
`calculateEndTime(task)` without passing `task.startTime`, so the helper
falls back to `new Date()`. -/
theorem C1_fixed_endTime_ambient_clock_bug :
    (autoSchedule ⟨[fixedTask], 480, 1200⟩ 480).1 =
      .ok [{ fixedTask with endTime := some 540 }] ∧
    scheduleFixedTask 480 480 1200 fixedTask =
      .ok { fixedTask with endTime := some (480 + fixedTask.duration) } ∧
    fixedTask.startTime = some 500 ∧
    (some (500 + fixedTask.duration) : Option Int) ≠ some 540 := by
  have hsort : prioritizeTasks [fixedTask] = [fixedTask] := by
    unfold prioritizeTasks
    simp
  refine ⟨?_, rfl, rfl, by decide⟩
  simp only [autoSchedule, hsort]
  rw [generateTimeSlots_eq]
  rfl

/-- The dispatcher can only throw the one fixed-task message. -/
theorem scheduleTask_ok_or_msg (now ws we : Int) (task : Task) (slots : List TimeSlot) :
    (∃ r, scheduleTask now ws we task slots = .ok r) ∨
      scheduleTask now ws we task slots = .error ("Fixed task outside of workday") := by
  cases hres : scheduleTask now ws we task slots with
  | ok r => exact Or.inl ⟨r, rfl⟩
  | error e =>
    refine Or.inr ?_
    suffices h : e = "Fixed task outside of workday" by rw [h]
    unfold scheduleTask at hres
    by_cases hc : task.type = TaskType.fixed ∧ task.startTime.isSome
    · rw [if_pos hc] at hres
      unfold scheduleFixedTask at hres
      cases hst : task.startTime with
      | none =>
        rw [hst] at hres
        simpa [Except.map] using hres.symm
      | some st =>
        rw [hst] at hres
        by_cases hw : isWithinWorkday ws we st
        · simp [hw, Except.map] at hres
        · simpa [hw, Except.map] using hres.symm
    · rw [if_neg hc] at hres
      split at hres <;> simp at hres

/-- If some task of the list is Fixed with an out-of-window start, the loop
ends in the hard error (and hence yields no placement list at all). -/
theorem schedLoop_error_of_bad (now ws we : Int) (tasks : List Task) :
    ∀ slots : List TimeSlot,
    (∃ t ∈ tasks, t.type = TaskType.fixed ∧
      ∃ st, t.startTime = some st ∧ ¬(ws ≤ st ∧ st ≤ we)) →
    schedLoop now ws we tasks slots = .error ("Fixed task outside of workday") := by
  induction tasks with
  | nil => intro slots h; simp at h
  | cons task rest ih =>
    intro slots h
    rcases h with ⟨t, ht, hfix, st, hst, hout⟩
    rcases List.mem_cons.mp ht with rfl | hmem
    · have hcond : t.type = TaskType.fixed ∧ t.startTime.isSome := ⟨hfix, by simp [hst]⟩
      have hwithin : isWithinWorkday ws we st = false := by
        simp only [isWithinWorkday, Bool.and_eq_false_iff, decide_eq_false_iff_not]
        omega
      have hsched : scheduleTask now ws we t slots =
          .error ("Fixed task outside of workday") := by
        simp [scheduleTask, hcond, scheduleFixedTask, hst, hwithin, Except.map]
      simp [schedLoop, hsched]
    · rcases scheduleTask_ok_or_msg now ws we task slots with ⟨r, hr⟩ | hr
      · have htail := ih r.2 ⟨t, hmem, hfix, st, hst, hout⟩
        simp [schedLoop, hr, htail]
      · simp [schedLoop, hr]

/-- C3: a run whose task list contains a Fixed task with a present start
time outside the inclusive window `[workdayStart, workdayEnd]` ends in the
hard error "Fixed task outside of workday": the orchestrator does not catch
it, so no output list is produced and earlier placements of the run are
discarded (the error carries no partial list). -/
theorem C3_fixed_outside_aborts (s : TaskScheduler) (now : Int)
    (h : ∃ t ∈ s.tasks, t.type = TaskType.fixed ∧
      ∃ st, t.startTime = some st ∧ ¬(s.workdayStart ≤ st ∧ st ≤ s.workdayEnd)) :
    (autoSchedule s now).1 = .error ("Fixed task outside of workday") := by
  apply schedLoop_error_of_bad
  rcases h with ⟨t, ht, hfix, st, hst, hout⟩
  refine ⟨t, ?_, hfix, st, hst, hout⟩
  exact ((prioritizeTasks_perm s.tasks).mem_iff).mpr ht

/-- A Fixed task starting at 300 (05:00), before the 08:00 workday start. -/
def fixedEarly : Task := mkTask ("E") .fixed .high 60 (some 300) none

/-- Closed instance of C3: the 05:00 fixed task aborts the whole run. -/
theorem C3_fixed_outside_aborts_witness :
    (autoSchedule ⟨[fixedEarly], 480, 1200⟩ 0).1 =
      .error ("Fixed task outside of workday") :=
  C3_fixed_outside_aborts ⟨[fixedEarly], 480, 1200⟩ 0
    ⟨fixedEarly, by simp, rfl, 300, rfl, by decide⟩

/-! ### Zero-duration fit -/

/-- A flexible task of duration 0. -/
def zeroTask : Task := mkTask ("Z") .flexible .medium 0 none none

/-- C4 counterexample: the fit check accepts a zero-duration task on a
generated grid slot (`30 ≥ 0`), and flexible placement does place it. -/
theorem C4_zero_duration_cex :
    zeroTask.duration = 0 ∧
    { start := 480, «end» := 510, available := true } ∈ generateTimeSlots 480 510 ∧
    canFitTask { start := 480, «end» := 510, available := true } zeroTask = true ∧
    (scheduleFlexibleTask 0 zeroTask (generateTimeSlots 480 510)).1 =
      some { zeroTask with startTime := some 480, endTime := some 480 } := by
  refine ⟨rfl, ?_, by decide, ?_⟩
  · rw [generateTimeSlots_eq]
    decide
  · rw [generateTimeSlots, genSlots_cons 510 480 (by decide)]
    rfl

/-- C4 amended: for a task with `durationMinutes ≤ 0` the fit check
reports a match on EVERY slot of the generated grid (each spans 30 minutes),
so far from never being placed, such a task dispatched to flexible placement
on a fresh grid is placed into the very first slot; the engine leaves
excluding such tasks entirely to upstream validation. -/
theorem C4_zero_duration_amended (ws we now : Int) (task : Task)
    (h : task.duration ≤ 0) :
    (∀ s ∈ generateTimeSlots ws we, canFitTask s task = true) ∧
    (ws < we →
      (scheduleFlexibleTask now task (generateTimeSlots ws we)).1 =
        some { task with startTime := some ws, endTime := some (ws + task.duration) }) := by
  constructor
  · intro s hs
    rw [generateTimeSlots_eq] at hs
    rcases List.mem_map.mp hs with ⟨i, _, rfl⟩
    simp only [canFitTask, ge_iff_le, decide_eq_true_eq]
    omega
  · intro hlt
    have hp : flexSlotPred task { start := ws, «end» := ws + 30, available := true } = true := by
      simp [flexSlotPred, canFitTask]
      omega
    rw [generateTimeSlots, genSlots_cons we ws hlt]
    simp [scheduleFlexibleTask, consumeFirst, hp, calculateEndTime]

/-- Closed instance of the amended C4: the zero-duration task is placed at
08:00 on the 08:00–09:00 grid. -/
theorem C4_zero_duration_amended_witness :
    (scheduleFlexibleTask 0 zeroTask (generateTimeSlots 480 540)).1 =
      some { zeroTask with startTime := some 480, endTime := some 480 } := by
  have h := (C4_zero_duration_amended 480 540 0 zeroTask (by decide)).2 (by decide)
  simpa [zeroTask, mkTask] using h

/-! ### Fixed task without a start time -/

/-- C10: a Fixed-kind task carrying no `startTime` never reaches
`scheduleFixedTask` (the dispatch needs a truthy `startTime`), so the hard
error cannot be raised for it; it is dispatched to preferred-window placement
when it has a `preferredWindow` and to flexible placement otherwise. -/
theorem C10_fixed_without_start_soft (now ws we : Int) (task : Task)
    (slots : List TimeSlot) (hty : task.type = TaskType.fixed)
    (hst : task.startTime = none) :
    scheduleTask now ws we task slots =
      .ok (match task.preferredTimeRange with
           | some _ => scheduleTaskWithPreference now task slots
           | none => scheduleFlexibleTask now task slots) := by
  have hcond : ¬(task.type = TaskType.fixed ∧ task.startTime.isSome) := by
    simp [hst]
  cases hpr : task.preferredTimeRange <;> simp [scheduleTask, hcond, hpr]

/-- A Fixed-kind task with no start time and no preferred window. -/
def fixedNoStart : Task := mkTask ("F0") .fixed .high 30 none none

/-- Closed instance of C10: the start-less fixed task goes through flexible
placement, with no error. -/
theorem C10_fixed_without_start_soft_witness :
    scheduleTask 0 480 1200 fixedNoStart [{ start := 480, «end» := 510, available := true }] =
      .ok (scheduleFlexibleTask 0 fixedNoStart
        [{ start := 480, «end» := 510, available := true }]) := by
  have h := C10_fixed_without_start_soft 0 480 1200 fixedNoStart
    [{ start := 480, «end» := 510, available := true }] rfl rfl
  simpa using h

/-! ### No double-booking of slots -/

/-- Membership of `x` in the task's placed half-open interval `[startTime, endTime)`. -/
def inInterval (t : Task) (x : Int) : Prop :=
  ∃ st et, t.startTime = some st ∧ t.endTime = some et ∧ st ≤ x ∧ x < et

/-- The task was placed at the slot's start with its duration fitting the
slot's span. -/
def occupies (t : Task) (s : TimeSlot) : Prop :=
  t.startTime = some s.start ∧ t.endTime = some (s.start + t.duration) ∧
    t.duration ≤ s.«end» - s.start

/-- Distinct positions of the slot list carry disjoint spans. -/
def slotsSeparated (l : List TimeSlot) : Prop :=
  ∀ (i j : Nat) (hi : i < l.length) (hj : j < l.length), i ≠ j →
    ∀ x : Int,
      ¬((l.get ⟨i, hi⟩).start ≤ x ∧ x < (l.get ⟨i, hi⟩).«end» ∧
        (l.get ⟨j, hj⟩).start ≤ x ∧ x < (l.get ⟨j, hj⟩).«end»)

/-- A point of an occupying task's interval lies in the slot's span. -/
theorem occupies_mem_interval {t : Task} {s : TimeSlot} {x : Int}
    (ho : occupies t s) (hx : inInterval t x) : s.start ≤ x ∧ x < s.«end» := by
  obtain ⟨h1, h2, h3⟩ := ho
  obtain ⟨st, et, ha, hb, hc, hd⟩ := hx
  rw [h1] at ha
  rw [h2] at hb
  have hst := Option.some.inj ha
  have het := Option.some.inj hb
  omega

/-- Inversion of a successful `consumeFirst`: the selected slot sits at some
position `i`, satisfies the predicate, and exactly that position is marked. -/
theorem consumeFirst_some_inv (p : TimeSlot → Bool) (l : List TimeSlot) (s : TimeSlot) :
    ∀ l2 : List TimeSlot, consumeFirst p l = (some s, l2) →
    ∃ (i : Nat) (hi : i < l.length),
      l.get ⟨i, hi⟩ = s ∧ p s = true ∧ l2 = l.set i (markUnavailable s) := by
  induction l with
  | nil => intro l2 h; simp [consumeFirst] at h
  | cons a rest ih =>
    intro l2 h
    by_cases hp : p a
    · simp only [consumeFirst, if_pos hp, Prod.mk.injEq, Option.some.injEq] at h
      obtain ⟨rfl, rfl⟩ := h
      exact ⟨0, by simp, by simp, hp, by simp⟩
    · simp only [consumeFirst, if_neg hp, Prod.mk.injEq] at h
      obtain ⟨h1, h2⟩ := h
      rcases hcf : consumeFirst p rest with ⟨o2, r2⟩
      rw [hcf] at h1 h2
      simp only at h1 h2
      obtain ⟨i, hi, hget, hps, hset⟩ := ih r2 (by rw [hcf, h1])
      refine ⟨i + 1, by simpa using Nat.succ_lt_succ hi, by simpa using hget, hps, ?_⟩
      rw [← h2, hset]
      simp

/-- Inversion of an unsuccessful `consumeFirst`: the slots are unchanged. -/
theorem consumeFirst_none_inv (p : TimeSlot → Bool) (l : List TimeSlot) :
    ∀ l2 : List TimeSlot, consumeFirst p l = (none, l2) → l2 = l := by
  induction l with
  | nil => intro l2 h; simp [consumeFirst] at h; exact h
  | cons a rest ih =>
    intro l2 h
    by_cases hp : p a
    · simp [consumeFirst, if_pos hp] at h
    · simp only [consumeFirst, if_neg hp, Prod.mk.injEq] at h
      obtain ⟨h1, h2⟩ := h
      rcases hcf : consumeFirst p rest with ⟨o2, r2⟩
      rw [hcf] at h1 h2
      simp only at h1 h2
      rw [← h2, ih r2 (by rw [hcf, h1])]

/-- Marking one slot preserves every span. -/
theorem set_mark_get_span (l : List TimeSlot) (i : Nat) (hi : i < l.length) (j : Nat)
    (hj : j < (l.set i (markUnavailable (l.get ⟨i, hi⟩))).length) :
    ∃ hj2 : j < l.length,
      ((l.set i (markUnavailable (l.get ⟨i, hi⟩))).get ⟨j, hj⟩).start =
        (l.get ⟨j, hj2⟩).start ∧
      ((l.set i (markUnavailable (l.get ⟨i, hi⟩))).get ⟨j, hj⟩).«end» =
        (l.get ⟨j, hj2⟩).«end» := by
  have hj2 : j < l.length := by simpa using hj
  refine ⟨hj2, ?_, ?_⟩ <;>
  · by_cases hij : i = j
    · subst hij
      simp [List.get_eq_getElem, List.getElem_set_self, markUnavailable]
    · simp [List.get_eq_getElem, List.getElem_set_ne hij]

/-- After marking position `i`, an available position differs from `i` and
was available before. -/
theorem set_mark_get_avail (l : List TimeSlot) (i : Nat) (hi : i < l.length) (j : Nat)
    (hj : j < (l.set i (markUnavailable (l.get ⟨i, hi⟩))).length) (hj2 : j < l.length)
    (h : ((l.set i (markUnavailable (l.get ⟨i, hi⟩))).get ⟨j, hj⟩).available = true) :
    j ≠ i ∧ (l.get ⟨j, hj2⟩).available = true := by
  by_cases hij : i = j
  · subst hij
    simp [List.get_eq_getElem, List.getElem_set_self, markUnavailable] at h
  · refine ⟨fun hji => hij hji.symm, ?_⟩
    simpa [List.get_eq_getElem, List.getElem_set_ne hij] using h

/-- Marking one slot preserves pairwise span separation. -/
theorem slotsSeparated_set_mark {l : List TimeSlot} {i : Nat} (hi : i < l.length)
    (h : slotsSeparated l) :
    slotsSeparated (l.set i (markUnavailable (l.get ⟨i, hi⟩))) := by
  intro a b ha hb hab x hx
  obtain ⟨ha2, has, hae⟩ := set_mark_get_span l i hi a ha
  obtain ⟨hb2, hbs, hbe⟩ := set_mark_get_span l i hi b hb
  rw [has, hae, hbs, hbe] at hx
  exact h a b ha2 hb2 hab x hx

/-- Inversion of a successful flexible placement. -/
theorem scheduleFlexibleTask_some_inv (now : Int) (task : Task) (slots : List TimeSlot)
    (placed : Task) (slots2 : List TimeSlot)
    (h : scheduleFlexibleTask now task slots = (some placed, slots2)) :
    ∃ (i : Nat) (hi : i < slots.length),
      (slots.get ⟨i, hi⟩).available = true ∧ occupies placed (slots.get ⟨i, hi⟩) ∧
      slots2 = slots.set i (markUnavailable (slots.get ⟨i, hi⟩)) := by
  rcases hcf : consumeFirst (flexSlotPred task) slots with ⟨ofst, snd⟩
  cases ofst with
  | none => simp [scheduleFlexibleTask, hcf] at h
  | some s =>
    simp only [scheduleFlexibleTask, hcf, Prod.mk.injEq, Option.some.injEq] at h
    obtain ⟨hplaced, hslots⟩ := h
    obtain ⟨i, hi, hget, hps, hset⟩ := consumeFirst_some_inv _ slots s snd hcf
    have hav : s.available = true ∧ task.duration ≤ s.«end» - s.start := by
      simpa [flexSlotPred, canFitTask] using hps
    subst hplaced
    refine ⟨i, hi, by rw [hget]; exact hav.1, ?_, by rw [← hslots, hset, hget]⟩
    rw [hget]
    exact ⟨rfl, by simp [calculateEndTime], hav.2⟩

/-- Inversion of a successful preferred-window placement. -/
theorem scheduleTaskWithPreference_some_inv (now : Int) (task : Task) (pr : TimeRange)
    (slots : List TimeSlot) (placed : Task) (slots2 : List TimeSlot)
    (hpr : task.preferredTimeRange = some pr)
    (h : scheduleTaskWithPreference now task slots = (some placed, slots2)) :
    ∃ (i : Nat) (hi : i < slots.length),
      (slots.get ⟨i, hi⟩).available = true ∧ occupies placed (slots.get ⟨i, hi⟩) ∧
      slots2 = slots.set i (markUnavailable (slots.get ⟨i, hi⟩)) := by
  rcases hcf : consumeFirst (prefSlotPred task pr) slots with ⟨ofst, snd⟩
  cases ofst with
  | none => simp [scheduleTaskWithPreference, hpr, hcf] at h
  | some s =>
    simp only [scheduleTaskWithPreference, hpr, hcf, Prod.mk.injEq, Option.some.injEq] at h
    obtain ⟨hplaced, hslots⟩ := h
    obtain ⟨i, hi, hget, hps, hset⟩ := consumeFirst_some_inv _ slots s snd hcf
    have hav : s.available = true ∧ task.duration ≤ s.«end» - s.start := by
      simp only [prefSlotPred, Bool.and_eq_true, canFitTask, ge_iff_le,
        decide_eq_true_eq] at hps
      exact ⟨hps.1.2, hps.2⟩
    subst hplaced
    refine ⟨i, hi, by rw [hget]; exact hav.1, ?_, by rw [← hslots, hset, hget]⟩
    rw [hget]
    exact ⟨rfl, by simp [calculateEndTime], hav.2⟩

/-- An unsuccessful flexible placement leaves the slots unchanged. -/
theorem scheduleFlexibleTask_none_inv (now : Int) (task : Task) (slots : List TimeSlot)
    (slots2 : List TimeSlot) (h : scheduleFlexibleTask now task slots = (none, slots2)) :
    slots2 = slots := by
  rcases hcf : consumeFirst (flexSlotPred task) slots with ⟨ofst, snd⟩
  cases ofst with
  | none =>
    simp only [scheduleFlexibleTask, hcf, Prod.mk.injEq] at h
    rw [← h.2]
    exact consumeFirst_none_inv _ slots snd hcf
  | some s => simp [scheduleFlexibleTask, hcf] at h

/-- An unsuccessful preferred-window placement leaves the slots unchanged. -/
theorem scheduleTaskWithPreference_none_inv (now : Int) (task : Task)
    (slots : List TimeSlot) (slots2 : List TimeSlot)
    (h : scheduleTaskWithPreference now task slots = (none, slots2)) :
    slots2 = slots := by
  cases hpr : task.preferredTimeRange with
  | none =>
    simp only [scheduleTaskWithPreference, hpr, Prod.mk.injEq] at h
    exact h.2.symm
  | some pr =>
    rcases hcf : consumeFirst (prefSlotPred task pr) slots with ⟨ofst, snd⟩
    cases ofst with
    | none =>
      simp only [scheduleTaskWithPreference, hpr, hcf, Prod.mk.injEq] at h
      rw [← h.2]
      exact consumeFirst_none_inv _ slots snd hcf
    | some s => simp [scheduleTaskWithPreference, hpr, hcf] at h

/-- A slot-routed success goes through exactly one available fitting slot,
which is the one marked unavailable. -/
theorem scheduleTask_slot_route_some (now ws we : Int) (task : Task)
    (slots : List TimeSlot) (placed : Task) (slots2 : List TimeSlot)
    (hroute : slotRouted task = true)
    (hres : scheduleTask now ws we task slots = .ok (some placed, slots2)) :
    ∃ (i : Nat) (hi : i < slots.length),
      (slots.get ⟨i, hi⟩).available = true ∧ occupies placed (slots.get ⟨i, hi⟩) ∧
      slots2 = slots.set i (markUnavailable (slots.get ⟨i, hi⟩)) := by
  have hcond : ¬(task.type = TaskType.fixed ∧ task.startTime.isSome) := by
    intro hc
    rw [slotRouted, decide_eq_true hc.1, hc.2] at hroute
    simp at hroute
  rw [scheduleTask, if_neg hcond] at hres
  by_cases hpr : task.preferredTimeRange.isSome
  · rw [if_pos hpr] at hres
    obtain ⟨pr, hpr2⟩ := Option.isSome_iff_exists.mp hpr
    exact scheduleTaskWithPreference_some_inv now task pr slots placed slots2 hpr2
      (Except.ok.inj hres)
  · rw [if_neg hpr] at hres
    exact scheduleFlexibleTask_some_inv now task slots placed slots2 (Except.ok.inj hres)

/-- A dispatch that returns no placement leaves the slots unchanged. -/
theorem scheduleTask_ok_none_slots (now ws we : Int) (task : Task)
    (slots : List TimeSlot) (slots2 : List TimeSlot)
    (hres : scheduleTask now ws we task slots = .ok (none, slots2)) :
    slots2 = slots := by
  by_cases hc : task.type = TaskType.fixed ∧ task.startTime.isSome
  · rw [scheduleTask, if_pos hc] at hres
    cases hf : scheduleFixedTask now ws we task with
    | ok t => rw [hf] at hres; simp [Except.map] at hres
    | error e => rw [hf] at hres; simp [Except.map] at hres
  · rw [scheduleTask, if_neg hc] at hres
    by_cases hpr : task.preferredTimeRange.isSome
    · rw [if_pos hpr] at hres
      exact scheduleTaskWithPreference_none_inv now task slots slots2 (Except.ok.inj hres)
    · rw [if_neg hpr] at hres
      exact scheduleFlexibleTask_none_inv now task slots slots2 (Except.ok.inj hres)

/-- The fixed route never touches the slot list. -/
theorem scheduleTask_fixed_route_slots (now ws we : Int) (task : Task)
    (slots : List TimeSlot) (r : Option Task × List TimeSlot)
    (hroute : slotRouted task = false)
    (hres : scheduleTask now ws we task slots = .ok r) : r.2 = slots := by
  have hb : (decide (task.type = TaskType.fixed) && task.startTime.isSome) = true := by
    cases h : (decide (task.type = TaskType.fixed) && task.startTime.isSome) with
    | false => rw [slotRouted, h] at hroute; simp at hroute
    | true => rfl
  have hc : task.type = TaskType.fixed ∧ task.startTime.isSome := by
    simp only [Bool.and_eq_true, decide_eq_true_eq] at hb
    exact hb
  rw [scheduleTask, if_pos hc] at hres
  cases hf : scheduleFixedTask now ws we task with
  | ok t =>
    rw [hf] at hres
    simp only [Except.map, Except.ok.injEq] at hres
    rw [← hres]
  | error e => rw [hf] at hres; simp [Except.map] at hres

/-- The disjointness relation carried between two tagged output tasks. -/
def pairDisjoint (a b : Bool × Task) : Prop :=
  a.1 = true → b.1 = true → ∀ x : Int, ¬(inInterval a.2 x ∧ inInterval b.2 x)

/-- Main invariant of the scheduling loop: on separated slots, every
slot-routed output task occupies an (initially available) slot, and the
slot-routed outputs are pairwise interval-disjoint. -/
theorem schedLoopT_inv (now ws we : Int) (tasks : List Task) :
    ∀ (slots : List TimeSlot) (tagged : List (Bool × Task)),
    slotsSeparated slots →
    schedLoopT now ws we tasks slots = .ok tagged →
    (∀ bt ∈ tagged, bt.1 = true →
      ∃ (i : Nat) (hi : i < slots.length),
        (slots.get ⟨i, hi⟩).available = true ∧ occupies bt.2 (slots.get ⟨i, hi⟩)) ∧
    List.Pairwise pairDisjoint tagged := by
  induction tasks with
  | nil =>
    intro slots tagged hsep hres
    simp only [schedLoopT, Except.ok.injEq] at hres
    subst hres
    exact ⟨by simp, by simp⟩
  | cons task rest ih =>
    intro slots tagged hsep hres
    rw [schedLoopT] at hres
    cases hsch : scheduleTask now ws we task slots with
    | error e => rw [hsch] at hres; simp at hres
    | ok r =>
      rw [hsch] at hres
      obtain ⟨ropt, slots2⟩ := r
      dsimp only at hres
      cases hloop : schedLoopT now ws we rest slots2 with
      | error e => rw [hloop] at hres; simp at hres
      | ok tail =>
        rw [hloop] at hres
        cases ropt with
        | none =>
          simp only [Except.ok.injEq] at hres
          subst hres
          have hs2 : slots2 = slots :=
            scheduleTask_ok_none_slots now ws we task slots slots2 hsch
          rw [hs2] at hloop
          exact ih slots _ hsep hloop
        | some st =>
          simp only [Except.ok.injEq] at hres
          subst hres
          by_cases hroute : slotRouted task = true
          · obtain ⟨i, hi, havail, hocc, hset⟩ :=
              scheduleTask_slot_route_some now ws we task slots st slots2 hroute hsch
            subst hset
            have hsep2 := slotsSeparated_set_mark hi hsep
            obtain ⟨htail1, htail2⟩ := ih _ tail hsep2 hloop
            constructor
            · intro bt hbt hbtt
              rcases List.mem_cons.mp hbt with rfl | hmem
              · exact ⟨i, hi, havail, hocc⟩
              · obtain ⟨j, hj, hjav, hjocc⟩ := htail1 bt hmem hbtt
                obtain ⟨hj2, hstart, hend⟩ := set_mark_get_span slots i hi j hj
                obtain ⟨hji, hjav2⟩ := set_mark_get_avail slots i hi j hj hj2 hjav
                obtain ⟨o1, o2, o3⟩ := hjocc
                rw [hstart] at o1 o2
                rw [hstart, hend] at o3
                exact ⟨j, hj2, hjav2, o1, o2, o3⟩
            · refine List.Pairwise.cons ?_ htail2
              intro bt hbt hhead hbtt x hx
              obtain ⟨j, hj, hjav, hjocc⟩ := htail1 bt hbt hbtt
              obtain ⟨hj2, hstart, hend⟩ := set_mark_get_span slots i hi j hj
              obtain ⟨hji, hjav2⟩ := set_mark_get_avail slots i hi j hj hj2 hjav
              obtain ⟨o1, o2, o3⟩ := hjocc
              rw [hstart] at o1 o2
              rw [hstart, hend] at o3
              obtain ⟨hx1, hx2⟩ := hx
              have hxi := occupies_mem_interval hocc hx1
              have hxj := occupies_mem_interval ⟨o1, o2, o3⟩ hx2
              exact hsep i j hi hj2 (fun hij => hji hij.symm) x
                ⟨hxi.1, hxi.2, hxj.1, hxj.2⟩
          · have hs2 : slots2 = slots :=
              scheduleTask_fixed_route_slots now ws we task slots (some st, slots2)
                (by revert hroute; cases slotRouted task <;> simp) hsch
            rw [hs2] at hloop
            obtain ⟨htail1, htail2⟩ := ih slots tail hsep hloop
            constructor
            · intro bt hbt hbtt
              rcases List.mem_cons.mp hbt with rfl | hmem
              · exact absurd hbtt hroute
              · exact htail1 bt hmem hbtt
            · refine List.Pairwise.cons ?_ htail2
              intro bt hbt hhead
              exact absurd hhead hroute

/-- Erasing the route tags recovers the orchestrator loop. -/
theorem schedLoop_eq_erase (now ws we : Int) (tasks : List Task) :
    ∀ slots : List TimeSlot,
      schedLoop now ws we tasks slots =
        (schedLoopT now ws we tasks slots).map (List.map Prod.snd) := by
  induction tasks with
  | nil => intro slots; rfl
  | cons task rest ih =>
    intro slots
    rw [schedLoop, schedLoopT]
    cases scheduleTask now ws we task slots with
    | error e => rfl
    | ok r =>
      dsimp only
      rw [ih r.2]
      cases schedLoopT now ws we rest r.2 with
      | error e => rfl
      | ok tail => cases r.1 <;> rfl

/-- The generated grid has pairwise disjoint spans. -/
theorem slotsSeparated_generate (ws we : Int) :
    slotsSeparated (generateTimeSlots ws we) := by
  rw [generateTimeSlots_eq]
  intro i j hi hj hij x hx
  simp only [List.length_map, List.length_range] at hi hj
  simp only [List.get_eq_getElem, List.getElem_map, List.getElem_range] at hx
  omega

/-- C5: every two distinct slot-routed tasks of an `autoSchedule` run's
output occupy disjoint `[startTime, endTime)` intervals: a slot, once marked
unavailable, is never consumed again in the same run, so no double-booking
occurs. Stated over the route-tagged loop `schedLoopT`, whose tag-erasure is
proven to be `autoSchedule`'s output itself. -/
theorem C5_slot_placed_disjoint (s : TaskScheduler) (now : Int)
    (tagged : List (Bool × Task))
    (hrun : schedLoopT now s.workdayStart s.workdayEnd (prioritizeTasks s.tasks)
      (generateTimeSlots s.workdayStart s.workdayEnd) = .ok tagged) :
    (autoSchedule s now).1 = .ok (tagged.map Prod.snd) ∧
    ∀ (i j : Nat) (hi : i < tagged.length) (hj : j < tagged.length), i ≠ j →
      (tagged.get ⟨i, hi⟩).1 = true → (tagged.get ⟨j, hj⟩).1 = true →
      ∀ x : Int,
        ¬(inInterval (tagged.get ⟨i, hi⟩).2 x ∧ inInterval (tagged.get ⟨j, hj⟩).2 x) := by
  constructor
  · show schedLoop now s.workdayStart s.workdayEnd (prioritizeTasks s.tasks)
      (generateTimeSlots s.workdayStart s.workdayEnd) = .ok (tagged.map Prod.snd)
    rw [schedLoop_eq_erase, hrun]
    rfl
  · have hpw := (schedLoopT_inv now s.workdayStart s.workdayEnd (prioritizeTasks s.tasks)
      (generateTimeSlots s.workdayStart s.workdayEnd) tagged
      (slotsSeparated_generate _ _) hrun).2
    intro i j hi hj hij hti htj x hx
    rcases Nat.lt_or_ge i j with h | h
    · have hr := List.pairwise_iff_getElem.mp hpw i j hi hj h
      simp only [List.get_eq_getElem] at hti htj hx
      exact hr hti htj x hx
    · have hji : j < i := by omega
      have hr := List.pairwise_iff_getElem.mp hpw j i hj hi hji
      simp only [List.get_eq_getElem] at hti htj hx
      exact hr htj hti x ⟨hx.2, hx.1⟩

/-- Closed instance of C5: a one-task run, with its route tag, erases to the
`autoSchedule` output. -/
theorem C5_slot_placed_disjoint_witness :
    (autoSchedule ⟨[flexA], 480, 540⟩ 0).1 =
      .ok [{ flexA with startTime := some 480, endTime := some 510 }] := by
  have hsort : prioritizeTasks [flexA] = [flexA] := by
    unfold prioritizeTasks
    simp
  have hrun : schedLoopT 0 480 540 (prioritizeTasks [flexA]) (generateTimeSlots 480 540) =
      .ok [(true, { flexA with startTime := some 480, endTime := some 510 })] := by
    rw [hsort, generateTimeSlots_eq]
    rfl
  have h := (C5_slot_placed_disjoint ⟨[flexA], 480, 540⟩ 0
    [(true, { flexA with startTime := some 480, endTime := some 510 })] hrun).1
  simpa using h

end SmartScheduler
